import Mathlib

/-!
# Verification of `no-async-hook` (src/use-effect-async.ts)

A shallow embedding of the two bridge functions of the library:

* `Async` (the Forward Bridge): starts a detached promise with a fresh
  `AbortController`, attaches a `.catch` handler that rethrows genuine user
  errors to the ambient unhandled-rejection sink while swallowing
  cancellation-induced rejections, and returns an idempotent abort trigger.

* `Effect` (the Reverse Bridge): turns a callback-registering initializer plus
  an `AbortSignal` into a promise, with a `hasDestructorBeenCalled` guard so
  the returned destructor runs at most once, a `freeResources` routine that
  unsubscribes the abort listener and runs the destructor inside a
  `try`/`catch` that logs destructor errors to the console, and first-writer
  -wins promise settlement.

The embedding is operational: an `EffState` records all mutable state of one
`Effect` invocation (the promise cell, the guard flag, whether the abort
listener is attached, the `const destructor` binding including its temporal
dead zone, the signal's aborted flag and reason, the console log and a count
of destructor-body executions).  The initializer supplied by the user is
modelled as a syntax tree `InitSpec` of the synchronous actions it may
perform (calling the resolver, aborting the signal, throwing, returning a
destructor), and everything that can happen after `Effect` returns is a list
of external events `Ev` (resolver calls and `controller.abort` calls).
-/

set_option autoImplicit false

namespace NoAsyncHook

/-- Settlement state of a JS promise: first writer wins, later resolutions
and rejections are silently ignored.  Rejection reasons and thrown errors
are identified by natural numbers. -/
inductive PromiseState (T : Type) where
  | pending
  | resolved (v : T)
  | rejected (r : Nat)
  deriving DecidableEq, Repr

/-- `resolve(v)` on a promise cell: only a pending promise changes. -/
def promResolve {T : Type} (p : PromiseState T) (v : T) : PromiseState T :=
  match p with
  | .pending => .resolved v
  | _ => p

/-- `reject(r)` on a promise cell: only a pending promise changes. -/
def promReject {T : Type} (p : PromiseState T) (r : Nat) : PromiseState T :=
  match p with
  | .pending => .rejected r
  | _ => p

/-- An entry of the console error log produced by the `catch` block inside
`freeResources`: either the `ReferenceError` raised by reading the
`const destructor` binding during its temporal dead zone (a synchronous
resolver call inside the initializer), or an error thrown by the destructor
body itself. -/
inductive CErr where
  | tdzRef
  | thrown (e : Nat)
  deriving DecidableEq, Repr

/-- Behaviour of a destructor returned by the initializer: do nothing, throw
an error, or call the `Effect` resolver with a value (the
"resolve exactly when cleanup runs" pattern). -/
inductive DtorSpec (T : Type) where
  | nop
  | throwE (e : Nat)
  | callResolve (v : T)
  deriving DecidableEq, Repr

/-- `true` iff the destructor body calls the resolver. -/
def DtorSpec.resolves {T : Type} : DtorSpec T → Bool
  | .callResolve _ => true
  | _ => false

/-- The `const destructor` binding of `Effect`'s promise executor: in its
temporal dead zone until `effect(...)` returns, then holds the returned
destructor (or `undefined`, when the initializer returned nothing). -/
inductive DtorVar (T : Type) where
  | tdz
  | assigned (d : Option (DtorSpec T))
  deriving DecidableEq, Repr

/-- All mutable state of one `Effect` invocation. -/
structure EffState (T : Type) where
  /-- the guard flag declared on line 25 of use-effect-async.ts -/
  hasDestructorBeenCalled : Bool
  /-- whether `onAbort` is currently subscribed to the signal -/
  listenerAttached : Bool
  /-- the `const destructor` binding (with temporal dead zone) -/
  destructor : DtorVar T
  /-- the promise created by `Effect` -/
  promise : PromiseState T
  /-- `console.error` entries logged by `freeResources` -/
  consoleLog : List CErr
  /-- how many times a destructor body has actually been executed -/
  dtorRuns : Nat
  /-- `signal.aborted` -/
  signalAborted : Bool
  /-- `signal.reason` (`none` while not aborted) -/
  signalReason : Option Nat
  /-- whether the initializer `effect` was invoked -/
  initInvoked : Bool
  deriving DecidableEq, Repr

/-- `signal.removeEventListener('abort', onAbort)`. -/
def clearListener {T : Type} (s : EffState T) : EffState T :=
  { s with listenerAttached := false }

/-- Append an entry to the console error log. -/
def logErr {T : Type} (s : EffState T) (e : CErr) : EffState T :=
  { s with consoleLog := s.consoleLog ++ [e] }

/-- The body of `freeResources` after the `removeEventListener` call:
`try { if (!hasDestructorBeenCalled) { hasDestructorBeenCalled = true;
destructor?.(); } } catch (error) { console.error(...) }`.

Reading `destructor` during its temporal dead zone throws a
`ReferenceError`, which the `catch` block logs.  A destructor body that
itself calls the resolver executes the resolver wrapper
`value => { freeResources(); resolve(value); }`; that inner `freeResources`
removes the (already removed) listener and skips the destructor because
`hasDestructorBeenCalled` is already `true` at that point (see
`freeResources_of_done` below), after which `resolve` settles the promise. -/
def runDtorGuarded {T : Type} (s : EffState T) : EffState T :=
  if s.hasDestructorBeenCalled then s
  else
    let s := { s with hasDestructorBeenCalled := true }
    match s.destructor with
    | .tdz => logErr s .tdzRef
    | .assigned none => s
    | .assigned (some d) =>
      let s := { s with dtorRuns := s.dtorRuns + 1 }
      match d with
      | .nop => s
      | .throwE e => logErr s (.thrown e)
      | .callResolve w =>
        let s := clearListener s
        { s with promise := promResolve s.promise w }

/-- `freeResources` (lines 27–42 of use-effect-async.ts). -/
def freeResources {T : Type} (s : EffState T) : EffState T :=
  runDtorGuarded (clearListener s)

/-- The resolver wrapper handed to the initializer (lines 49–52):
`value => { freeResources(); resolve(value); }`. -/
def resolverCall {T : Type} (s : EffState T) (v : T) : EffState T :=
  let s := freeResources s
  { s with promise := promResolve s.promise v }

/-- `onAbort` (lines 44–47): `freeResources(); reject(signal.reason)`.
Only ever invoked once the signal is aborted, so `signalReason` is set. -/
def onAbort {T : Type} (s : EffState T) : EffState T :=
  let s := freeResources s
  { s with promise := promReject s.promise (s.signalReason.getD 0) }

/-- `controller.abort(r)` on the signal given to this `Effect` invocation:
a second abort is a no-op; otherwise the aborted flag and reason are set and
the `abort` event fires the listener if it is currently attached. -/
def ctlAbortEff {T : Type} (s : EffState T) (r : Nat) : EffState T :=
  if s.signalAborted then s
  else
    let s := { s with signalAborted := true, signalReason := some r }
    if s.listenerAttached then onAbort s else s

/-- The synchronous behaviour of the user-supplied initializer `effect`:
a finite sequence of resolver calls and signal aborts, ended by either
throwing an error or returning an optional destructor. -/
inductive InitSpec (T : Type) where
  | callResolveThen (v : T) (k : InitSpec T)
  | abortThen (r : Nat) (k : InitSpec T)
  | throwE (e : Nat)
  | ret (d : Option (DtorSpec T))
  deriving DecidableEq, Repr

/-- How the initializer's execution ended. -/
inductive InitOutcome (T : Type) where
  | threw (e : Nat)
  | returned (d : Option (DtorSpec T))
  deriving DecidableEq, Repr

/-- Execute the initializer: each resolver call runs the resolver wrapper
(at a point where `destructor` is still in its temporal dead zone), each
abort runs `controller.abort` (the `onAbort` listener is not yet attached
at that point in the source). -/
def runInit {T : Type} (s : EffState T) : InitSpec T → EffState T × InitOutcome T
  | .callResolveThen v k => runInit (resolverCall s v) k
  | .abortThen r k => runInit (ctlAbortEff s r) k
  | .throwE e => (s, .threw e)
  | .ret d => (s, .returned d)

/-- An external event after `Effect` has returned: `controller.abort(r)` on
the signal, or a (possibly repeated) call of the captured resolver. -/
inductive Ev (T : Type) where
  | abortEv (r : Nat)
  | resolveEv (v : T)
  deriving DecidableEq, Repr

/-- Dispatch one external event. -/
def stepEv {T : Type} (s : EffState T) : Ev T → EffState T
  | .abortEv r => ctlAbortEff s r
  | .resolveEv v => resolverCall s v

/-- Dispatch a list of external events in order. -/
def runEvents {T : Type} (s : EffState T) (es : List (Ev T)) : EffState T :=
  es.foldl stepEv s

/-- The state at the start of the promise executor. -/
def initState (T : Type) : EffState T :=
  { hasDestructorBeenCalled := false
    listenerAttached := false
    destructor := .tdz
    promise := .pending
    consoleLog := []
    dtorRuns := 0
    signalAborted := false
    signalReason := none
    initInvoked := false }

/-- `Effect` (lines 17–60 of use-effect-async.ts), run against a signal that
is either already aborted with reason `r` (`sig = some r`) or not aborted
(`sig = none`), an initializer behaviour, and the external events delivered
after `Effect` returns.

* Already-aborted signal: `return Promise.reject(signal.reason)` — the
  initializer is never invoked, and no resolver or listener exists, so the
  events cannot interact with this invocation.
* Otherwise the promise executor runs: the initializer is invoked first
  (binding `const destructor = effect(...)`), and only afterwards is
  `onAbort` subscribed via `signal.addEventListener('abort', onAbort)`
  (line 54).  If the initializer throws, the outer `catch` rejects the
  promise and the listener is never attached. -/
def Effect {T : Type} (sig : Option Nat) (eff : InitSpec T) (events : List (Ev T)) :
    EffState T :=
  match sig with
  | some r =>
    { initState T with signalAborted := true, signalReason := some r,
                       promise := .rejected r }
  | none =>
    let s0 := { initState T with initInvoked := true }
    match runInit s0 eff with
    | (s, .threw e) => runEvents { s with promise := promReject s.promise e } events
    | (s, .returned d) =>
      runEvents { s with destructor := .assigned d, listenerAttached := true } events

end NoAsyncHook

namespace NoAsyncHook

/-! ## Model of `Async` (lines 3–15 of use-effect-async.ts) -/

/-- A value a detached task's promise can reject with: either an error
produced by user code, or the private `abortReason` sentinel
(`Symbol('promise-aborted')`), which user code can only obtain from
`signal.reason` after the trigger aborted the controller. -/
inductive AsyncErr where
  | user (e : Nat)
  | sentinel
  deriving DecidableEq, Repr

/-- Reference equality against the private sentinel
(`error !== abortReason` in the source, negated). -/
def isAbortSentinel : AsyncErr → Bool
  | .sentinel => true
  | .user _ => false

/-- The `.catch` handler attached by `Async` (lines 8–12):
`error => { if (!signal.aborted && error !== abortReason) { throw error; } }`.
Returns `true` iff the rejection is rethrown, i.e. surfaced to the ambient
unhandled-rejection sink; `false` means it is silently discarded.
`abortedNow` is `signal.aborted` at the moment the handler runs. -/
def asyncCatchHandler (abortedNow : Bool) (err : AsyncErr) : Bool :=
  !abortedNow && !(isAbortSentinel err)

/-- State of the `AbortController`/`AbortSignal` pair created by `Async`;
listeners are identified by numbers. -/
structure CtlSignal where
  aborted : Bool
  reason : Option AsyncErr
  listeners : List Nat
  deriving DecidableEq, Repr

/-- `controller.abort(r)`: aborting an already-aborted controller has no
further effect and fires nothing; otherwise the aborted flag and reason are
set and every subscribed listener fires once (the fired listeners are the
second component). -/
def ctlAbort (s : CtlSignal) (r : AsyncErr) : CtlSignal × List Nat :=
  if s.aborted then (s, [])
  else ({ s with aborted := true, reason := some r }, s.listeners)

/-- The trigger returned by `Async` (line 14):
`() => controller.abort(abortReason)`. -/
def asyncTrigger (s : CtlSignal) : CtlSignal × List Nat :=
  ctlAbort s .sentinel

/-- The signal state reached by one trigger call. -/
def triggerState (s : CtlSignal) : CtlSignal :=
  (asyncTrigger s).1

end NoAsyncHook

namespace NoAsyncHook

/-- The state of an `Effect` invocation right after the promise executor has
finished setting up: the initializer ran and returned `d`, the `const
destructor` binding was initialized, and `onAbort` was subscribed. -/
def effectSetup {T : Type} (d : Option (DtorSpec T)) : EffState T :=
  { hasDestructorBeenCalled := false
    listenerAttached := true
    destructor := .assigned d
    promise := .pending
    consoleLog := []
    dtorRuns := 0
    signalAborted := false
    signalReason := none
    initInvoked := true }

/-- `some e` iff the initializer throws the error `e` synchronously without
having called the resolver first (any number of signal aborts may precede
the throw).  An initializer that calls the resolver before throwing settles
the promise first, so it is outside this scope. -/
def throwsWithoutResolve {T : Type} : InitSpec T → Option Nat
  | .callResolveThen _ _ => none
  | .abortThen _ k => throwsWithoutResolve k
  | .throwE e => some e
  | .ret _ => none

/-! ## Basic lemmas about the `Effect` state machine -/

theorem promResolve_of_ne_pending {T : Type} (p : PromiseState T) (v : T)
    (h : p ≠ .pending) : promResolve p v = p := by
  cases p <;> simp_all [promResolve]

theorem promReject_of_ne_pending {T : Type} (p : PromiseState T) (r : Nat)
    (h : p ≠ .pending) : promReject p r = p := by
  cases p <;> simp_all [promReject]

theorem promResolve_ne_pending {T : Type} (p : PromiseState T) (v : T) :
    promResolve p v ≠ .pending := by
  cases p <;> simp [promResolve]

/-- The destructor guard is skipped entirely once the flag is set. -/
theorem runDtorGuarded_of_done {T : Type} (s : EffState T)
    (h : s.hasDestructorBeenCalled = true) : runDtorGuarded s = s := by
  simp [runDtorGuarded, h]

/-- Fidelity of the inlined reentrant resolver call inside `runDtorGuarded`:
once `hasDestructorBeenCalled` is set, `freeResources` only removes the
abort listener. -/
theorem freeResources_of_done {T : Type} (s : EffState T)
    (h : s.hasDestructorBeenCalled = true) : freeResources s = clearListener s := by
  have : (clearListener s).hasDestructorBeenCalled = true := h
  simp [freeResources, runDtorGuarded_of_done _ this]

/-- `freeResources` always leaves the guard flag set. -/
theorem freeResources_flag {T : Type} (s : EffState T) :
    (freeResources s).hasDestructorBeenCalled = true := by
  obtain ⟨f, l, dv, p, cl, dr, sa, sr, ii⟩ := s
  cases f
  · cases dv with
    | tdz => simp [freeResources, clearListener, runDtorGuarded, logErr]
    | assigned d =>
      cases d with
      | none => simp [freeResources, clearListener, runDtorGuarded]
      | some d =>
        cases d <;> simp [freeResources, clearListener, runDtorGuarded, logErr]
  · simp [freeResources, clearListener, runDtorGuarded]

/-- `freeResources` always leaves the abort listener unsubscribed. -/
theorem freeResources_listener {T : Type} (s : EffState T) :
    (freeResources s).listenerAttached = false := by
  obtain ⟨f, l, dv, p, cl, dr, sa, sr, ii⟩ := s
  cases f
  · cases dv with
    | tdz => simp [freeResources, clearListener, runDtorGuarded, logErr]
    | assigned d =>
      cases d with
      | none => simp [freeResources, clearListener, runDtorGuarded]
      | some d =>
        cases d <;> simp [freeResources, clearListener, runDtorGuarded, logErr]
  · simp [freeResources, clearListener, runDtorGuarded]

/-- Any resolver call leaves the guard flag set, the listener unsubscribed
and the promise settled. -/
theorem resolverCall_done {T : Type} (s : EffState T) (a : T) :
    (resolverCall s a).hasDestructorBeenCalled = true ∧
    (resolverCall s a).listenerAttached = false ∧
    (resolverCall s a).promise ≠ .pending := by
  refine ⟨freeResources_flag s, freeResources_listener s, ?_⟩
  simp [resolverCall, promResolve_ne_pending]

/-- `clearListener` is the identity when the listener is already gone. -/
theorem clearListener_of_clear {T : Type} (s : EffState T)
    (h : s.listenerAttached = false) : clearListener s = s := by
  cases s
  simp_all [clearListener]

/-- A resolver call on a state whose guard flag is set, whose listener is
unsubscribed and whose promise is settled changes nothing at all. -/
theorem stepEv_resolve_noop {T : Type} (s : EffState T) (b : T)
    (h1 : s.hasDestructorBeenCalled = true) (h2 : s.listenerAttached = false)
    (h3 : s.promise ≠ .pending) : stepEv s (.resolveEv b) = s := by
  have hfr : freeResources s = s := by
    rw [freeResources, clearListener_of_clear s h2, runDtorGuarded_of_done s h1]
  show resolverCall s b = s
  rw [resolverCall]
  simp only [hfr, promResolve_of_ne_pending s.promise b h3]

end NoAsyncHook

namespace NoAsyncHook

/-- Once the guard flag is set and the promise is settled, firing `onAbort`
changes neither the promise nor the destructor-run count nor the log. -/
theorem onAbort_done {T : Type} (s : EffState T)
    (h1 : s.hasDestructorBeenCalled = true) (h2 : s.promise ≠ .pending) :
    (onAbort s).promise = s.promise ∧ (onAbort s).dtorRuns = s.dtorRuns ∧
    (onAbort s).consoleLog = s.consoleLog ∧
    (onAbort s).hasDestructorBeenCalled = true := by
  have hfr := freeResources_of_done s h1
  simp [onAbort, hfr, clearListener, h1, h2, promReject_of_ne_pending]

/-- Once the guard flag is set and the promise is settled, no external event
changes the promise, the destructor-run count, or the console log. -/
theorem stepEv_done {T : Type} (s : EffState T) (e : Ev T)
    (h1 : s.hasDestructorBeenCalled = true) (h2 : s.promise ≠ .pending) :
    (stepEv s e).promise = s.promise ∧ (stepEv s e).dtorRuns = s.dtorRuns ∧
    (stepEv s e).consoleLog = s.consoleLog ∧
    (stepEv s e).hasDestructorBeenCalled = true := by
  cases e with
  | resolveEv v =>
    have hfr : freeResources s = clearListener s := freeResources_of_done s h1
    simp [stepEv, resolverCall, hfr, clearListener, h1,
      promResolve_of_ne_pending s.promise v h2]
  | abortEv r =>
    by_cases hb : s.signalAborted = true
    · simp [stepEv, ctlAbortEff, hb, h1]
    · have hb' : s.signalAborted = false := by simpa using hb
      by_cases hl : s.listenerAttached = true
      · have hrw : stepEv s (.abortEv r) =
            onAbort { s with signalAborted := true, signalReason := some r } := by
          simp [stepEv, ctlAbortEff, hb', hl]
        rw [hrw]
        exact onAbort_done { s with signalAborted := true, signalReason := some r } h1 h2
      · have hl' : s.listenerAttached = false := by simpa using hl
        simp [stepEv, ctlAbortEff, hb', hl', h1]

/-- `runEvents` unfolds one event at a time. -/
theorem runEvents_cons {T : Type} (s : EffState T) (e : Ev T) (es : List (Ev T)) :
    runEvents s (e :: es) = runEvents (stepEv s e) es := rfl

/-- Iterated form of `stepEv_done`. -/
theorem runEvents_done {T : Type} (es : List (Ev T)) (s : EffState T)
    (h1 : s.hasDestructorBeenCalled = true) (h2 : s.promise ≠ .pending) :
    (runEvents s es).promise = s.promise ∧ (runEvents s es).dtorRuns = s.dtorRuns ∧
    (runEvents s es).consoleLog = s.consoleLog ∧
    (runEvents s es).hasDestructorBeenCalled = true := by
  induction es generalizing s with
  | nil => exact ⟨rfl, rfl, rfl, h1⟩
  | cons e es ih =>
    have hstep := stepEv_done s e h1 h2
    have h2' : (stepEv s e).promise ≠ .pending := by rw [hstep.1]; exact h2
    have h := ih (stepEv s e) hstep.2.2.2 h2'
    rw [runEvents_cons]
    exact ⟨h.1.trans hstep.1, h.2.1.trans hstep.2.1, h.2.2.1.trans hstep.2.2.1, h.2.2.2⟩

/-- When the initializer threw, the `const destructor` binding stays in its
temporal dead zone and the listener was never attached; external events then
never change the promise or run a destructor body. -/
theorem stepEv_tdz {T : Type} (s : EffState T) (e : Ev T)
    (h1 : s.destructor = .tdz) (h2 : s.listenerAttached = false)
    (h3 : s.promise ≠ .pending) :
    (stepEv s e).promise = s.promise ∧ (stepEv s e).dtorRuns = s.dtorRuns ∧
    (stepEv s e).destructor = .tdz ∧ (stepEv s e).listenerAttached = false := by
  cases e with
  | resolveEv v =>
    by_cases hf : s.hasDestructorBeenCalled = true
    · have hfr : freeResources s = clearListener s := freeResources_of_done s hf
      simp [stepEv, resolverCall, hfr, clearListener, h1,
        promResolve_of_ne_pending s.promise v h3]
    · have hf' : s.hasDestructorBeenCalled = false := by simpa using hf
      simp [stepEv, resolverCall, freeResources, clearListener, runDtorGuarded, hf',
        h1, logErr, promResolve_of_ne_pending s.promise v h3]
  | abortEv r =>
    by_cases hb : s.signalAborted = true
    · simp [stepEv, ctlAbortEff, hb, h1, h2]
    · have hb' : s.signalAborted = false := by simpa using hb
      simp [stepEv, ctlAbortEff, hb', h2, h1]

/-- Iterated form of `stepEv_tdz`. -/
theorem runEvents_tdz {T : Type} (es : List (Ev T)) (s : EffState T)
    (h1 : s.destructor = .tdz) (h2 : s.listenerAttached = false)
    (h3 : s.promise ≠ .pending) :
    (runEvents s es).promise = s.promise ∧ (runEvents s es).dtorRuns = s.dtorRuns := by
  induction es generalizing s with
  | nil => exact ⟨rfl, rfl⟩
  | cons e es ih =>
    have hstep := stepEv_tdz s e h1 h2 h3
    have h3' : (stepEv s e).promise ≠ .pending := by rw [hstep.1]; exact h3
    have h := ih (stepEv s e) hstep.2.2.1 hstep.2.2.2 h3'
    rw [runEvents_cons]
    exact ⟨h.1.trans hstep.1, h.2.trans hstep.2.1⟩

/-- Running `Effect` on a not-yet-aborted signal with an initializer that
just returns `d` first reaches the set-up state, then processes the events. -/
theorem Effect_ret {T : Type} (d : Option (DtorSpec T)) (events : List (Ev T)) :
    Effect none (.ret d) events = runEvents (effectSetup d) events := rfl

/-- Dropping a second resolver call that directly follows a first one never
changes the run: by then the guard flag is set, the listener is removed and
the promise is settled, so the second call is the identity. -/
theorem runEvents_second_resolve {T : Type} (s : EffState T)
    (pre post : List (Ev T)) (a b : T) :
    runEvents s (pre ++ .resolveEv a :: .resolveEv b :: post) =
      runEvents s (pre ++ .resolveEv a :: post) := by
  have h1 : ∀ u : EffState T,
      stepEv (stepEv u (.resolveEv a)) (.resolveEv b) = stepEv u (.resolveEv a) := by
    intro u
    have hc := resolverCall_done u a
    exact stepEv_resolve_noop _ b hc.1 hc.2.1 hc.2.2
  simp only [runEvents, List.foldl_append, List.foldl_cons]
  rw [show stepEv (stepEv (List.foldl stepEv s pre) (.resolveEv a)) (.resolveEv b)
      = stepEv (List.foldl stepEv s pre) (.resolveEv a) from h1 _]

/-- Two event lists that `runEvents` cannot tell apart give equal `Effect`
runs: in every branch of `Effect` the events are handed to `runEvents` on a
state that does not depend on them (on an already-aborted signal they are
ignored altogether). -/
theorem Effect_eq_of_runEvents_eq {T : Type} (sig : Option Nat) (eff : InitSpec T)
    (es1 es2 : List (Ev T))
    (h : ∀ s : EffState T, runEvents s es1 = runEvents s es2) :
    Effect sig eff es1 = Effect sig eff es2 := by
  cases sig with
  | some r => rfl
  | none =>
    show (match runInit { initState T with initInvoked := true } eff with
      | (s, .threw e) => runEvents { s with promise := promReject s.promise e } es1
      | (s, .returned d) =>
        runEvents { s with destructor := .assigned d, listenerAttached := true } es1) =
      (match runInit { initState T with initInvoked := true } eff with
      | (s, .threw e) => runEvents { s with promise := promReject s.promise e } es2
      | (s, .returned d) =>
        runEvents { s with destructor := .assigned d, listenerAttached := true } es2)
    rcases runInit { initState T with initInvoked := true } eff with ⟨s, o⟩
    cases o <;> exact h _

end NoAsyncHook

namespace NoAsyncHook

/-- Abort path: on a set-up `Effect` whose destructor does not itself call
the resolver, an abort runs the destructor once and rejects the promise with
the abort reason; whatever comes later changes nothing. -/
theorem abort_path_outcome {T : Type} (d : DtorSpec T) (hd : d.resolves = false)
    (r : Nat) (rest : List (Ev T)) :
    (Effect none (.ret (some d)) (.abortEv r :: rest)).dtorRuns = 1 ∧
    (Effect none (.ret (some d)) (.abortEv r :: rest)).promise = .rejected r := by
  cases d with
  | callResolve w => simp [DtorSpec.resolves] at hd
  | nop =>
    rw [Effect_ret, runEvents_cons]
    have hstep : stepEv (effectSetup (T := T) (some .nop)) (.abortEv r) =
        ⟨true, false, .assigned (some .nop), .rejected r, [], 1, true, some r, true⟩ := rfl
    rw [hstep]
    have h := runEvents_done rest
      ⟨true, false, .assigned (some .nop), .rejected r, [], 1, true, some r, true⟩
      rfl (by simp)
    exact ⟨h.2.1, h.1⟩
  | throwE e =>
    rw [Effect_ret, runEvents_cons]
    have hstep : stepEv (effectSetup (T := T) (some (.throwE e))) (.abortEv r) =
        ⟨true, false, .assigned (some (.throwE e)), .rejected r, [.thrown e], 1,
          true, some r, true⟩ := rfl
    rw [hstep]
    have h := runEvents_done rest
      ⟨true, false, .assigned (some (.throwE e)), .rejected r, [.thrown e], 1,
        true, some r, true⟩
      rfl (by simp)
    exact ⟨h.2.1, h.1⟩

/-- Resolver path: on a set-up `Effect` whose destructor does not itself call
the resolver, a resolver call runs the destructor once and fulfills the
promise with the value; whatever comes later changes nothing. -/
theorem resolve_path_outcome {T : Type} (d : DtorSpec T) (hd : d.resolves = false)
    (v : T) (rest : List (Ev T)) :
    (Effect none (.ret (some d)) (.resolveEv v :: rest)).dtorRuns = 1 ∧
    (Effect none (.ret (some d)) (.resolveEv v :: rest)).promise = .resolved v := by
  cases d with
  | callResolve w => simp [DtorSpec.resolves] at hd
  | nop =>
    rw [Effect_ret, runEvents_cons]
    have hstep : stepEv (effectSetup (T := T) (some .nop)) (.resolveEv v) =
        ⟨true, false, .assigned (some .nop), .resolved v, [], 1, false, none, true⟩ := rfl
    rw [hstep]
    have h := runEvents_done rest
      ⟨true, false, .assigned (some .nop), .resolved v, [], 1, false, none, true⟩
      rfl (by simp)
    exact ⟨h.2.1, h.1⟩
  | throwE e =>
    rw [Effect_ret, runEvents_cons]
    have hstep : stepEv (effectSetup (T := T) (some (.throwE e))) (.resolveEv v) =
        ⟨true, false, .assigned (some (.throwE e)), .resolved v, [.thrown e], 1,
          false, none, true⟩ := rfl
    rw [hstep]
    have h := runEvents_done rest
      ⟨true, false, .assigned (some (.throwE e)), .resolved v, [.thrown e], 1,
        false, none, true⟩
      rfl (by simp)
    exact ⟨h.2.1, h.1⟩

end NoAsyncHook

namespace NoAsyncHook

/-- C1: for every `Effect` invocation on a not-yet-aborted token whose
initializer returns a destructor (one that does not itself call the
resolver), the destructor runs exactly once regardless of which trigger
happens first: if the token aborts before the resolver is called the
promise rejects with the abort reason, and if the resolver is called first
the promise fulfills with the resolved value; in either case every later
abort or resolver call (the arbitrary `restA`/`restB` tails) is a no-op on
the promise and on the destructor-run count. -/
theorem effect_cleanup_exactly_once {T : Type} (d : DtorSpec T)
    (hd : d.resolves = false) (r : Nat) (v : T) (restA restB : List (Ev T)) :
    ((Effect none (.ret (some d)) (.abortEv r :: restA)).dtorRuns = 1 ∧
      (Effect none (.ret (some d)) (.abortEv r :: restA)).promise = .rejected r) ∧
    ((Effect none (.ret (some d)) (.resolveEv v :: restB)).dtorRuns = 1 ∧
      (Effect none (.ret (some d)) (.resolveEv v :: restB)).promise = .resolved v) :=
  ⟨abort_path_outcome d hd r restA, resolve_path_outcome d hd v restB⟩

/-- Witness for C1 at `d = nop`, `r = 5`, `v = 3`, empty tails. -/
theorem effect_cleanup_exactly_once_witness :
    (DtorSpec.nop : DtorSpec Nat).resolves = false ∧
    (((Effect (T := Nat) none (.ret (some .nop)) [.abortEv 5]).dtorRuns = 1 ∧
       (Effect (T := Nat) none (.ret (some .nop)) [.abortEv 5]).promise = .rejected 5) ∧
     ((Effect (T := Nat) none (.ret (some .nop)) [.resolveEv 3]).dtorRuns = 1 ∧
       (Effect (T := Nat) none (.ret (some .nop)) [.resolveEv 3]).promise = .resolved 3)) :=
  ⟨by decide, effect_cleanup_exactly_once DtorSpec.nop (by decide) 5 3 [] []⟩

/-- C2: for every token that is already aborted (with reason `r`) when
`Effect` is called, the returned promise is immediately rejected with `r`
and the initializer is never invoked, whatever the initializer is and
whatever happens afterwards. -/
theorem effect_already_aborted {T : Type} (r : Nat) (eff : InitSpec T)
    (events : List (Ev T)) :
    (Effect (some r) eff events).promise = .rejected r ∧
    (Effect (some r) eff events).initInvoked = false :=
  ⟨rfl, rfl⟩

/-- C3: the `.catch` handler of `Async` surfaces a rejection (rethrows it to
the ambient unhandled-rejection sink) exactly when the token is not aborted
at that moment, and silently discards it when the token is aborted.  The
hypothesis records that the private `abortReason` sentinel is unreachable as
a rejection value while the signal is not aborted (user code can only obtain
it from `signal.reason` after the abort). -/
theorem async_rejection_policy (b : Bool) (e : AsyncErr)
    (hreach : e = .sentinel → b = true) :
    asyncCatchHandler b e = !b := by
  cases b <;> cases e <;> simp_all [asyncCatchHandler, isAbortSentinel]

/-- Witness for C3 at a user error with the token not aborted. -/
theorem async_rejection_policy_witness :
    ((AsyncErr.user 3) = .sentinel → false = true) ∧
    asyncCatchHandler false (.user 3) = !false :=
  ⟨by decide, async_rejection_policy false (.user 3) (by decide)⟩

/-- C4: a destructor that throws after the resolver settled the promise is
caught and logged by `freeResources` and does not alter the settlement: the
promise still fulfills with the resolved value, the thrown error is on the
console log, and the destructor ran exactly once. -/
theorem cleanup_throw_keeps_value {T : Type} (v : T) (e : Nat)
    (rest : List (Ev T)) :
    (Effect none (.ret (some (.throwE e))) (.resolveEv v :: rest)).promise =
      .resolved v ∧
    (Effect none (.ret (some (.throwE e))) (.resolveEv v :: rest)).consoleLog =
      [.thrown e] ∧
    (Effect none (.ret (some (.throwE e))) (.resolveEv v :: rest)).dtorRuns = 1 := by
  rw [Effect_ret, runEvents_cons]
  have hstep : stepEv (effectSetup (T := T) (some (.throwE e))) (.resolveEv v) =
      ⟨true, false, .assigned (some (.throwE e)), .resolved v, [.thrown e], 1,
        false, none, true⟩ := rfl
  rw [hstep]
  have h := runEvents_done rest
    ⟨true, false, .assigned (some (.throwE e)), .resolved v, [.thrown e], 1,
      false, none, true⟩
    rfl (by simp)
  exact ⟨h.1, h.2.2.1, h.2.1⟩

/-- C5 counterexample: in src/use-effect-async.ts the abort listener is
subscribed only after the initializer has run (line 54 after line 49), so an
abort delivered during the initializer's own execution is NOT observed by
the listener: with the concrete initializer that aborts the signal with
reason 7 and then returns a destructor, the promise stays pending, no
destructor runs and nothing rejects — contradicting the claimed
subscribe-before-invoke ordering and its consequence. -/
theorem abort_during_init_unobserved_cex :
    (Effect (T := Nat) none (.abortThen 7 (.ret (some .nop))) []).promise =
      .pending ∧
    (Effect (T := Nat) none (.abortThen 7 (.ret (some .nop))) []).dtorRuns = 0 ∧
    (Effect (T := Nat) none (.abortThen 7 (.ret (some .nop))) []).signalAborted =
      true := by
  decide

/-- C5 amended: `Effect` invokes the initializer first and subscribes the
abort listener only afterwards; consequently an abort delivered during the
initializer's own execution is not observed — the promise is not settled by
it and the destructor does not run, even though the signal is aborted and
the listener ends up attached (to an already-aborted signal, so it will
never fire). -/
theorem abort_during_init_unobserved {T : Type} (r : Nat) (d : DtorSpec T) :
    (Effect none (.abortThen r (.ret (some d))) []).promise = .pending ∧
    (Effect none (.abortThen r (.ret (some d))) []).dtorRuns = 0 ∧
    (Effect none (.abortThen r (.ret (some d))) []).signalAborted = true ∧
    (Effect none (.abortThen r (.ret (some d))) []).listenerAttached = true :=
  ⟨rfl, rfl, rfl, rfl⟩

/-- C6: a second resolver call is silently discarded: inserting
`resolve(b)` directly after a `resolve(a)` anywhere in any run of `Effect`
leaves the entire resulting state unchanged, and on the standard path (a
non-resolving destructor) the promise settles to the first value `a`. -/
theorem resolver_second_call_discarded {T : Type} (sig : Option Nat)
    (eff : InitSpec T) (pre post : List (Ev T)) (a b : T) (d : DtorSpec T)
    (hd : d.resolves = false) (rest : List (Ev T)) :
    Effect sig eff (pre ++ .resolveEv a :: .resolveEv b :: post) =
      Effect sig eff (pre ++ .resolveEv a :: post) ∧
    (Effect none (.ret (some d)) (.resolveEv a :: .resolveEv b :: rest)).promise =
      .resolved a :=
  ⟨Effect_eq_of_runEvents_eq sig eff _ _
      (fun s => runEvents_second_resolve s pre post a b),
   (resolve_path_outcome d hd a (.resolveEv b :: rest)).2⟩

/-- Witness for C6 at `a = 1`, `b = 2`, `d = nop`, empty surrounding lists. -/
theorem resolver_second_call_discarded_witness :
    (DtorSpec.nop : DtorSpec Nat).resolves = false ∧
    (Effect (T := Nat) none (.ret (some .nop))
        ([] ++ .resolveEv 1 :: .resolveEv 2 :: []) =
      Effect (T := Nat) none (.ret (some .nop)) ([] ++ .resolveEv 1 :: []) ∧
     (Effect (T := Nat) none (.ret (some .nop))
        (.resolveEv 1 :: .resolveEv 2 :: [])).promise = .resolved 1) :=
  ⟨by decide,
   resolver_second_call_discarded none (.ret (some .nop)) [] [] 1 2 .nop (by decide) []⟩

/-- C7: a destructor that itself calls the resolver does not re-enter
cleanup: whichever trigger fires first (abort or resolver call), the
destructor body executes exactly once — the guard flag is already set before
it runs — and its resolver call settles the promise with the destructor's
value; later events change nothing. -/
theorem cleanup_resolve_no_reentry {T : Type} (w v : T) (r : Nat)
    (restA restB : List (Ev T)) :
    ((Effect none (.ret (some (.callResolve w))) (.abortEv r :: restA)).dtorRuns = 1 ∧
      (Effect none (.ret (some (.callResolve w))) (.abortEv r :: restA)).promise =
        .resolved w) ∧
    ((Effect none (.ret (some (.callResolve w))) (.resolveEv v :: restB)).dtorRuns = 1 ∧
      (Effect none (.ret (some (.callResolve w))) (.resolveEv v :: restB)).promise =
        .resolved w) := by
  constructor
  · rw [Effect_ret, runEvents_cons]
    have hstep : stepEv (effectSetup (T := T) (some (.callResolve w))) (.abortEv r) =
        ⟨true, false, .assigned (some (.callResolve w)), .resolved w, [], 1,
          true, some r, true⟩ := rfl
    rw [hstep]
    have h := runEvents_done restA
      ⟨true, false, .assigned (some (.callResolve w)), .resolved w, [], 1,
        true, some r, true⟩
      rfl (by simp)
    exact ⟨h.2.1, h.1⟩
  · rw [Effect_ret, runEvents_cons]
    have hstep : stepEv (effectSetup (T := T) (some (.callResolve w))) (.resolveEv v) =
        ⟨true, false, .assigned (some (.callResolve w)), .resolved w, [], 1,
          false, none, true⟩ := rfl
    rw [hstep]
    have h := runEvents_done restB
      ⟨true, false, .assigned (some (.callResolve w)), .resolved w, [], 1,
        false, none, true⟩
      rfl (by simp)
    exact ⟨h.2.1, h.1⟩

/-- C8: the trigger returned by `Async` is idempotent: on the fresh
controller the first call sets the aborted flag with the sentinel reason and
fires the listeners once, and iterating the trigger any further leaves the
signal state (flag, reason, listeners) exactly where the first call put it,
firing nothing. -/
theorem async_trigger_idempotent (ls : List Nat) (n : Nat) :
    (asyncTrigger ⟨false, none, ls⟩).1 = ⟨true, some .sentinel, ls⟩ ∧
    (asyncTrigger ⟨false, none, ls⟩).2 = ls ∧
    triggerState^[n + 1] ⟨false, none, ls⟩ = ⟨true, some .sentinel, ls⟩ ∧
    asyncTrigger ⟨true, some .sentinel, ls⟩ = (⟨true, some .sentinel, ls⟩, []) := by
  refine ⟨rfl, rfl, ?_, rfl⟩
  induction n with
  | zero => rfl
  | succ n ih => rw [Function.iterate_succ_apply', ih]; rfl

/-- While the `onAbort` listener is not attached, `controller.abort` only
sets the signal flags: promise, destructor binding and run count are
untouched (this is the situation during the initializer's execution). -/
theorem ctlAbortEff_quiet {T : Type} (s : EffState T) (r : Nat)
    (hl : s.listenerAttached = false) :
    (ctlAbortEff s r).promise = s.promise ∧
    (ctlAbortEff s r).dtorRuns = s.dtorRuns ∧
    (ctlAbortEff s r).destructor = s.destructor ∧
    (ctlAbortEff s r).listenerAttached = false := by
  by_cases hb : s.signalAborted = true
  · simp [ctlAbortEff, hb, hl]
  · have hb' : s.signalAborted = false := by simpa using hb
    simp [ctlAbortEff, hb', hl]

/-- Running an initializer that throws without a prior resolver call ends in
`threw` and leaves the promise, the destructor binding, the run count and
the (detached) listener untouched: the aborts in its prefix only set the
signal flags, because `onAbort` is not attached during the initializer. -/
theorem runInit_throw_noresolve {T : Type} (eff : InitSpec T) (e : Nat) :
    ∀ s : EffState T, s.listenerAttached = false →
      throwsWithoutResolve eff = some e →
      ∃ s', runInit s eff = (s', .threw e) ∧ s'.promise = s.promise ∧
        s'.dtorRuns = s.dtorRuns ∧ s'.destructor = s.destructor ∧
        s'.listenerAttached = false := by
  induction eff with
  | callResolveThen v k ihk =>
    intro s hl h
    simp [throwsWithoutResolve] at h
  | abortThen r k ihk =>
    intro s hl h
    have hq := ctlAbortEff_quiet s r hl
    obtain ⟨s', h1, h2, h3, h4, h5⟩ := ihk (ctlAbortEff s r) hq.2.2.2 h
    exact ⟨s', h1, h2.trans hq.1, h3.trans hq.2.1, h4.trans hq.2.2.1, h5⟩
  | throwE e2 =>
    intro s hl h
    have he : e2 = e := by simpa [throwsWithoutResolve] using h
    subst he
    exact ⟨s, rfl, rfl, rfl, rfl, hl⟩
  | ret d =>
    intro s hl h
    simp [throwsWithoutResolve] at h

/-- C9 counterexample: an initializer that calls the resolver and then
throws is also a synchronously-throwing initializer, and for it the original
claim fails: `resolve(42)` settles the promise first (lines 50–52 of
use-effect-async.ts), so the `reject` in the executor's `catch` (line 57) is
a no-op on the settled promise — the future fulfills with 42 instead of
rejecting with the thrown error 9. -/
theorem resolve_then_throw_fulfills_cex :
    (Effect (T := Nat) none (.callResolveThen 42 (.throwE 9)) []).promise =
      .resolved 42 ∧
    (Effect (T := Nat) none (.callResolveThen 42 (.throwE 9)) []).promise ≠
      .rejected 9 := by
  decide

/-- C9 (amended): for every initializer that throws synchronously without
having called the resolver first (any number of signal aborts may precede
the throw), the promise of `Effect` rejects with exactly the thrown error
and no destructor body is ever invoked for that call, whatever events
follow (the `const destructor` binding is never initialized, and the abort
listener is never attached). -/
theorem effect_init_throw_rejects {T : Type} (eff : InitSpec T) (e : Nat)
    (h : throwsWithoutResolve eff = some e) (events : List (Ev T)) :
    (Effect none eff events).promise = .rejected e ∧
    (Effect none eff events).dtorRuns = 0 := by
  obtain ⟨s', h1, h2, h3, h4, h5⟩ :=
    runInit_throw_noresolve eff e { initState T with initInvoked := true } rfl h
  have h0 : Effect none eff events =
      runEvents { s' with promise := promReject s'.promise e } events := by
    show (match runInit { initState T with initInvoked := true } eff with
      | (s, .threw e2) =>
        runEvents { s with promise := promReject s.promise e2 } events
      | (s, .returned d) =>
        runEvents { s with destructor := .assigned d,
                           listenerAttached := true } events) =
      runEvents { s' with promise := promReject s'.promise e } events
    rw [h1]
  rw [h0]
  have hpend : s'.promise = .pending := h2
  have hrej : promReject s'.promise e = .rejected e := by rw [hpend]; rfl
  have hre := runEvents_tdz events { s' with promise := promReject s'.promise e }
    h4 h5 (by show promReject s'.promise e ≠ .pending; rw [hrej]; simp)
  constructor
  · rw [hre.1]
    exact hrej
  · rw [hre.2]
    exact h3

/-- Witness for C9 at an initializer that aborts the signal once and then
throws, with a late resolver call afterwards. -/
theorem effect_init_throw_rejects_witness :
    throwsWithoutResolve (T := Nat) (.abortThen 1 (.throwE 9)) = some 9 ∧
    ((Effect (T := Nat) none (.abortThen 1 (.throwE 9)) [.resolveEv 5]).promise =
       .rejected 9 ∧
     (Effect (T := Nat) none (.abortThen 1 (.throwE 9)) [.resolveEv 5]).dtorRuns = 0) :=
  ⟨by decide,
   effect_init_throw_rejects (.abortThen 1 (.throwE 9)) 9 (by decide) [.resolveEv 5]⟩

/-- C10: an initializer that calls the resolver synchronously during its own
execution and then returns a destructor leaves the promise fulfilled with
the resolved value, and the returned destructor is never invoked — the
`hasDestructorBeenCalled` flag was already set during the synchronous
resolver call — whatever events follow. -/
theorem sync_resolve_skips_destructor {T : Type} (v : T) (d : DtorSpec T)
    (events : List (Ev T)) :
    (Effect none (.callResolveThen v (.ret (some d))) events).promise =
      .resolved v ∧
    (Effect none (.callResolveThen v (.ret (some d))) events).dtorRuns = 0 ∧
    (Effect none (.callResolveThen v (.ret (some d))) events).hasDestructorBeenCalled =
      true := by
  have h0 : Effect none (.callResolveThen v (.ret (some d))) events =
      runEvents (⟨true, true, .assigned (some d), .resolved v, [.tdzRef], 0,
        false, none, true⟩ : EffState T) events := rfl
  rw [h0]
  have h := runEvents_done events
    (⟨true, true, .assigned (some d), .resolved v, [.tdzRef], 0,
      false, none, true⟩ : EffState T)
    rfl (by simp)
  exact ⟨h.1, h.2.1, h.2.2.2⟩

end NoAsyncHook
